import Mathlib

/-
Verification of the tachyon task runner (runner.go, builtin.go) against its
specification.  The Go code is shallowly embedded: mutable runner state
(result history, notify set, the play FutureScope) is threaded explicitly,
external collaborators (template expansion, command construction, process
execution) are parameters, and machine effects (wall-clock time, goroutine
interleaving) are out of the embedding.
-/

namespace Tachyon

/-- Tagged run-time value.  The Go code stores `interface{}` values; the
spec's design notes describe the tagged variant integer/string/boolean/other. -/
inductive Value where
  | vint  (n : Int)
  | vstr  (s : String)
  | vbool (b : Bool)
  | vother
deriving DecidableEq, Repr

/-- Go `ResultData` is `map[string]Value`; modelled as an association list
with insert-or-overwrite writes and key lookup. -/
abbrev ResultData := List (String × Value)

/-- Map lookup on `ResultData`. -/
def dataGet (d : ResultData) (k : String) : Option Value :=
  (d.find? (fun p => p.1 == k)).map Prod.snd

/-- Map insert-or-overwrite on `ResultData` (Go map assignment). -/
def dataSet (d : ResultData) (k : String) (v : Value) : ResultData :=
  match d with
  | [] => [(k, v)]
  | (k', v') :: rest => if k' == k then (k, v) :: rest else (k', v') :: dataSet rest k v

/-- Result of one execution: the command-declared `changed` flag plus the
key/value data (runner.go uses `Result{Changed, Data}` via NewResult /
WrapResult; the scheduler later writes `failed` / `error` into `Data`). -/
structure Result where
  changed : Bool
  data : ResultData
deriving DecidableEq, Repr

/-- Go `NewResult(changed)`: an empty result with the given changed flag. -/
def NewResult (changed : Bool) : Result := ⟨changed, []⟩

/-- Go `WrapResult(changed, data)`. -/
def WrapResult (changed : Bool) (d : ResultData) : Result := ⟨changed, d⟩

/-- Go `Result.Add` / `ResultData.Set` (map write). -/
def Result.add (r : Result) (k : String) (v : Value) : Result :=
  ⟨r.changed, dataSet r.data k v⟩

/-- Go `Result.Get`. -/
def Result.get (r : Result) (k : String) : Option Value :=
  dataGet r.data k

/-- Task (runner.go / task.go): name template, command selector, args
template, optional When / Items / Register / Notify / Async / Future /
IncludeVars, exactly the fields `runTask` consults. -/
structure Task where
  name : String
  command : String
  args : String
  when : String
  items : Option (List Value)
  register : String
  notify : List String
  async : Bool
  future : String
  includeVars : List (String × Value)
deriving DecidableEq, Repr

/-- Play: seed vars, tasks, handlers, and the names for which
`play.Modules` has an entry (the module bodies enter separately through the
`ModuleRunRun` model and the `moduleRun` collaborator). -/
structure Play where
  vars : List (String × Value)
  tasks : List Task
  handlers : List Task
  modules : List String
deriving DecidableEq, Repr

/-- A value stored in a scope frame: either an ordinary variable value or a
`*Result` pointer bound by Register (`none` models a nil pointer). -/
inductive SVal where
  | v (x : Value)
  | r (x : Option Result)
deriving DecidableEq, Repr

/-- One scope frame (the local map of a NestedScope / FutureScope). -/
abbrev Frame := List (String × SVal)

/-- A read view of a scope chain, innermost frame first; `Get` checks each
frame in order (NestedScope.Get forwards to the parent on a miss,
PriorityScope.Get checks the overlay first). -/
abbrev ScopeV := List Frame

/-- Frame lookup. -/
def frameGet (f : Frame) (k : String) : Option SVal :=
  (f.find? (fun p => p.1 == k)).map Prod.snd

/-- Frame insert-or-overwrite (Go `Scope.Set` on the local frame). -/
def frameSet (f : Frame) (k : String) (v : SVal) : Frame :=
  match f with
  | [] => [(k, v)]
  | (k', v') :: rest => if k' == k then (k, v) :: rest else (k', v') :: frameSet rest k v

/-- Chained scope lookup. -/
def scopeGet (sv : ScopeV) (k : String) : Option SVal :=
  match sv with
  | [] => none
  | f :: rest =>
    match frameGet f k with
    | some v => some v
    | none => scopeGet rest k

/-- One entry of the runner's result history (`RunResult{Task, Result,
Runtime}`); the Result pointer can be nil, hence `Option`; elapsed wall-clock
time is outside the embedding. -/
structure RunResult where
  task : Task
  result : Option Result
deriving DecidableEq, Repr

/-- Reporter events emitted by the runner (`report.StartTask`,
`report.FinishTask`); the Command argument is dropped (not comparable). -/
inductive ReportEv where
  | startTask (task : Task) (name : String) (args : String)
  | finishTask (task : Task) (res : Option Result)
deriving DecidableEq, Repr

/-- The runner's mutable state visible to `runTask`: result history, the
notify set (`to_notify`), the play FutureScope's variable frame and future
registry, AsyncActions launched so far, and all reporter events. -/
structure RState where
  results : List RunResult
  toNotify : List String
  fsVars : Frame
  futures : List (String × Task)
  asyncLaunched : List Task
  reports : List ReportEv
deriving DecidableEq, Repr

/-- Go map insert `r.to_notify[n] = struct{}{}` on the set modelled as a
duplicate-free list: membership is idempotent, nothing is ever removed. -/
def addNotify (s : List String) (n : String) : List String :=
  if s.contains n then s else s ++ [n]

/-- Go `Runner.ShouldRunHandler`. -/
def ShouldRunHandler (st : RState) (n : String) : Bool :=
  st.toNotify.contains n

/-- A Command: `Run(ce, args)` returning `(*Result, error)`.  It receives
the runner state so that a module-backed command's recursive sub-run can
touch the shared history/notify set; builtin commands leave it unchanged. -/
structure Cmd where
  run : String → RState → RState × Option Result × Option String

/-- External collaborators of `runTask`: `ExpandVars`, `MakeCommand`, and
the behavior of `ModuleRun.Run` for a module-name command. -/
structure Collab where
  expandVars : ScopeV → String → Except String String
  makeCommand : ScopeV → Task → String → Except String Cmd
  moduleRun : String → String → RState → RState × Option Result × Option String

/-- Go `boolify` (runner.go): empty, "false" and "no" are falsy. -/
def boolify (str : String) : Bool :=
  match str with
  | "" => false
  | "false" => false
  | "no" => false
  | _ => true

/-- Read view of `PriorityScope{task.IncludeVars, s}` where the scope `s` is
the frames `sF` nested over the play FutureScope's variables `fs`. -/
def psViewOf (task : Task) (sF : List Frame) (fs : Frame) : ScopeV :=
  (task.includeVars.map (fun p => (p.1, SVal.v p.2))) :: (sF ++ [fs])

/-- Read view of the child scope `ns := NewNestedScope(s); ns.Set("item",
item)` used for each item of an item loop. -/
def itemViewOf (it : Value) (sF : List Frame) (fs : Frame) : ScopeV :=
  [("item", SVal.v it)] :: (sF ++ [fs])

/-- Which dispatch branch `runTask` took. -/
inductive Dispatch where
  | items | future | async | sync
deriving DecidableEq, Repr

/-- Append a `StartTask` reporter event. -/
def reportStart (st : RState) (task : Task) (name args : String) : RState :=
  { st with reports := st.reports ++ [ReportEv.startTask task name args] }

/-- The failed Result the scheduler synthesizes when a command returns an
error: `NewResult(false)` with `failed=true` and `error=<message>`. -/
def failedResult (msg : String) : Result :=
  ((NewResult false).add "failed" (Value.vbool true)).add "error" (Value.vstr msg)

/-- The completion block shared by the synchronous branch of `runTask` and
each iteration of `runTaskItems` (runner.go duplicates it verbatim):
Register binds the raw returned Result into the FutureScope, then a command
error is replaced by a synthesized failed Result, which is appended to the
history and reported; Notify names are added only when there was no error. -/
def completeTask (task : Task) (res : Option Result) (err : Option String)
    (st : RState) : RState :=
  let st1 := if task.register ≠ "" then
      { st with fsVars := frameSet st.fsVars task.register (SVal.r res) }
    else st
  let res' : Option Result :=
    match err with
    | some msg => some (failedResult msg)
    | none => res
  let st2 := { st1 with results := st1.results ++ [RunResult.mk task res'] }
  let st3 := { st2 with reports := st2.reports ++ [ReportEv.finishTask task res'] }
  match err with
  | none => { st3 with toNotify := List.foldl addNotify st3.toNotify task.notify }
  | some _ => st3

/-- Go `Runner.runTaskItems`: for each item in order, bind `item` in a child
scope over `s`, re-expand name and args against that child scope, build the
command, report, run it, and apply the shared completion block; an expansion
or MakeCommand error aborts, a command error does not. -/
def runTaskItems (c : Collab) (task : Task) (sF : List Frame)
    (items : List Value) (st : RState) : RState × Option String :=
  match items with
  | [] => (st, none)
  | item :: rest =>
    let view := itemViewOf item sF st.fsVars
    match c.expandVars view task.name with
    | .error e => (st, some e)
    | .ok name =>
      match c.expandVars view task.args with
      | .error e => (st, some e)
      | .ok str =>
        match c.makeCommand view task str with
        | .error e => (st, some e)
        | .ok cmd =>
          let out := cmd.run str (reportStart st task name str)
          runTaskItems c task sF rest (completeTask task out.2.1 out.2.2 out.1)

/-- Go `runTask`'s command resolution: a command name with a Module on the
Play becomes a ModuleRun sharing the runner's state, otherwise
`MakeCommand` builds the builtin (an error there aborts). -/
def resolveCmd (c : Collab) (play : Play) (task : Task) (ps : ScopeV)
    (str : String) : Except String Cmd :=
  if play.modules.contains task.command then
    .ok ⟨fun a s => c.moduleRun task.command a s⟩
  else
    c.makeCommand ps task str

/-- The part of Go `Runner.runTask` after the When gate: the item loop takes
precedence, then name/args are expanded against the PriorityScope, the
command resolves to a ModuleRun when the Play has a module of that name,
and dispatch priority is Future, then Async, then synchronous.  The third
component records which branch ran.  The trailing `return err` of the Go
function returns the outer `err` (nil on every path reaching it): the
`res, err :=` inside the synchronous branch shadows it, so a command error
is never propagated. -/
def runTaskDispatch (c : Collab) (play : Play) (task : Task) (sF : List Frame)
    (st : RState) : RState × Option String × Option Dispatch :=
  match task.items with
  | some items =>
    let out := runTaskItems c task sF items st
    (out.1, out.2, some Dispatch.items)
  | none =>
    let ps := psViewOf task sF st.fsVars
    match c.expandVars ps task.name with
    | .error e => (st, some e, none)
    | .ok name =>
      match c.expandVars ps task.args with
      | .error e => (st, some e, none)
      | .ok str =>
        match resolveCmd c play task ps str with
        | .error e => (st, some e, none)
        | .ok cmd =>
          let st1 := reportStart st task name str
          if task.future ≠ "" then
            ({ st1 with futures := st1.futures ++ [(task.future, task)] },
              none, some Dispatch.future)
          else if task.async then
            ({ st1 with asyncLaunched := st1.asyncLaunched ++ [task] },
              none, some Dispatch.async)
          else
            let out := cmd.run str st1
            (completeTask task out.2.1 out.2.2 out.1, none, some Dispatch.sync)

/-- Go `Runner.runTask`: the When gate (evaluated against the
PriorityScope; an expansion error aborts, a falsy value skips the task with
no effect), then `runTaskDispatch`. -/
def runTask (c : Collab) (play : Play) (task : Task) (sF : List Frame)
    (st : RState) : RState × Option String × Option Dispatch :=
  if task.when = "" then
    runTaskDispatch c play task sF st
  else
    let ps := psViewOf task sF st.fsVars
    match c.expandVars ps task.when with
    | .error e => (st, some e, none)
    | .ok w =>
      if boolify w then runTaskDispatch c play task sF st
      else (st, none, none)

/-- The handler loop of phase two of Go `Runner.Run`: each handler of the
play is dispatched through `runTask` iff `ShouldRunHandler(task.Name())`
holds at the moment it is considered; a runTask error aborts the loop.  The
middle component lists the handlers actually dispatched. -/
def runHandlers (c : Collab) (play : Play) (hs : List Task) (st : RState) :
    RState × List Task × Option String :=
  match hs with
  | [] => (st, [], none)
  | h :: rest =>
    if ShouldRunHandler st h.name then
      let out := runTask c play h [] st
      match out.2.1 with
      | some e => (out.1, [h], some e)
      | none =>
        let r2 := runHandlers c play rest out.1
        (r2.1, h :: r2.2.1, r2.2.2)
    else
      runHandlers c play rest st

/-- Go `ModuleRun.Run` (runner.go): for each task of the module, parse the
caller arguments with `ParseSimpleMap` (an error aborts with a nil Result),
bind them in a child scope, and invoke the runner's `runTask` discarding its
return value; finally return `NewResult(true)` and no error.  `parse` stands
for the external `ParseSimpleMap(ns, args)` collaborator and `subRunTask`
for `m.Runner.runTask(env.Env, m.Play, task, ns, m.FutureScope)`. -/
def ModuleRunRun (parse : Except String (List (String × Value)))
    (subRunTask : Task → List (String × Value) → RState → RState × Option String)
    (modTasks : List Task) (st : RState) :
    RState × Option Result × Option String :=
  match modTasks with
  | [] => (st, some (NewResult true), none)
  | t :: rest =>
    match parse with
    | .error e => (st, none, some e)
    | .ok sm =>
      let st' := (subRunTask t sm st).1
      ModuleRunRun parse subRunTask rest st'

/-- Go `CommandResult` (builtin.go): exit code plus captured stdout/stderr
(the captured bytes are modelled as text). -/
structure CommandResult where
  returnCode : Int
  stdout : String
  stderr : String
deriving DecidableEq, Repr

/-- How a child process run ends: it exits with a status, or fails for a
reason that is not a process exit status (spawn failure and the like). -/
inductive ProcOutcome where
  | exited (code : Nat)
  | failed (msg : String)
deriving DecidableEq, Repr

/-- One child process run: captured stdout/stderr and how it ended. -/
structure Proc where
  stdout : String
  stderr : String
  outcome : ProcOutcome
deriving DecidableEq, Repr

/-- The error value `captureCmd` hands back from `c.Wait()`: an
`exec.ExitError` exactly on a non-zero exit status, some other error kind
otherwise. -/
inductive WaitErr where
  | exitError (code : Nat)
  | other (msg : String)
deriving DecidableEq, Repr

/-- The `c.Wait()` error of `captureCmd`: nil on exit 0, an ExitError on a
non-zero exit, another error on a non-exit failure. -/
def captureWaitErr : ProcOutcome → Option WaitErr
  | .exited 0 => none
  | .exited code => some (.exitError code)
  | .failed msg => some (.other msg)

/-- Go `RunCommand` (builtin.go): `rc := 0`; an ExitError from `captureCmd`
sets `rc = 1`, any other error is returned with no CommandResult. -/
def RunCommand (p : Proc) : Except String CommandResult :=
  match captureWaitErr p.outcome with
  | none => .ok ⟨0, p.stdout, p.stderr⟩
  | some (.exitError _) => .ok ⟨1, p.stdout, p.stderr⟩
  | some (.other msg) => .error msg

/-- Go `RunCommandInEnv` (builtin.go): same body as `RunCommand` with the
environment installed on the command before it starts. -/
def RunCommandInEnv (unixEnv : List String) (p : Proc) : Except String CommandResult :=
  match captureWaitErr p.outcome with
  | none => .ok ⟨0, p.stdout, p.stderr⟩
  | some (.exitError _) => .ok ⟨1, p.stdout, p.stderr⟩
  | some (.other msg) => .error msg

/-- The whitespace test of Go `strings.TrimSpace` (`unicode.IsSpace`),
restricted to the space characters below U+0100. -/
def isSpaceChar (c : Char) : Bool :=
  c == ' ' || c == '\t' || c == '\n' || c == '\r'
    || c == Char.ofNat 11 || c == Char.ofNat 12
    || c == Char.ofNat 133 || c == Char.ofNat 160

/-- Go `strings.TrimSpace`: drop leading and trailing whitespace. -/
def trimSpace (s : String) : String :=
  String.mk (((s.data.dropWhile isSpaceChar).reverse.dropWhile isSpaceChar).reverse)

/-- Go `strings.Replace(stdout, "\n", " ", -1)`: the pattern is the single
newline character, so the replacement maps each newline to a space. -/
def replaceNl (s : String) : String :=
  String.mk (s.data.map (fun c => if c == '\n' then ' ' else c))

/-- The Go type assertion `v.Read().(int)`; `none` models the panic on a
non-integer value. -/
def Value.asInt : Value → Option Int
  | .vint n => some n
  | _ => none

/-- The Go type assertion `v.Read().(string)`. -/
def Value.asStr : Value → Option String
  | .vstr s => some s
  | _ => none

/-- Go `renderShellResult` (builtin.go): missing `rc`/`stdout`/`stderr` keys
yield `("", false)`; exit 0 with empty stdout and stderr yields an empty
summary; otherwise, with empty stderr and stdout shorter than 60 bytes, a
`rc: <n>, stdout: "<text>"` summary with newlines replaced by spaces;
otherwise no summary.  String length is byte length as in Go `len`. -/
def renderShellResult (res : Result) : Option (String × Bool) :=
  match res.get "rc" with
  | none => some ("", false)
  | some rcv =>
    match res.get "stdout" with
    | none => some ("", false)
    | some stdoutv =>
      match res.get "stderr" with
      | none => some ("", false)
      | some stderrv =>
        match rcv.asInt, stdoutv.asStr, stderrv.asStr with
        | some rc, some stdout, some stderr =>
          if rc = 0 ∧ stdout.utf8ByteSize = 0 ∧ stderr.utf8ByteSize = 0 then
            some ("", true)
          else if stderr.utf8ByteSize = 0 ∧ stdout.utf8ByteSize < 60 then
            some ("rc: " ++ toString rc ++ ", stdout: \"" ++ replaceNl stdout ++ "\"", true)
          else
            some ("", false)
        | _, _, _ => none

/-- Go `runCmd` (builtin.go): run the process, build a changed Result with
`rc` and whitespace-trimmed `stdout`/`stderr`, then attach the compact
`_result` summary when `renderShellResult` produces one. -/
def runCmd (p : Proc) : Except String Result :=
  match RunCommand p with
  | .error e => .error e
  | .ok cmd =>
    let r := NewResult true
    let r := r.add "rc" (Value.vint cmd.returnCode)
    let r := r.add "stdout" (Value.vstr (trimSpace cmd.stdout))
    let r := r.add "stderr" (Value.vstr (trimSpace cmd.stderr))
    match renderShellResult r with
    | some (str, true) => .ok (r.add "_result" (Value.vstr str))
    | some (_, false) => .ok r
    | none => .error "panic: interface conversion"

/-
Sample collaborators and inputs used by witnesses and counterexamples.
-/

/-- Expansion collaborator that returns the template text unchanged. -/
def idExpand : ScopeV → String → Except String String :=
  fun _ s => Except.ok s

/-- A command that returns the given Result and no error, leaving the
runner state untouched (as every builtin command does). -/
def okCmd (res : Option Result) : Cmd :=
  ⟨fun _ st => (st, res, none)⟩

/-- A command that returns a nil Result and the given error. -/
def errCmd (msg : String) : Cmd :=
  ⟨fun _ st => (st, none, some msg)⟩

/-- A Collab whose MakeCommand always yields the given command. -/
def collabWith (cmd : Cmd) : Collab :=
  { expandVars := idExpand
    makeCommand := fun _ _ _ => Except.ok cmd
    moduleRun := fun _ _ st => (st, some (NewResult true), none) }

/-- A play with no vars, tasks, handlers or modules. -/
def play0 : Play := ⟨[], [], [], []⟩

/-- The empty runner state. -/
def st0 : RState := ⟨[], [], [], [], [], []⟩

/-- A plain synchronous task with no modifiers. -/
def baseTask : Task :=
  { name := "t", command := "c", args := "a", when := "", items := none,
    register := "", notify := [], async := false, future := "", includeVars := [] }

/-- A collaborator family whose expansion and commands are pure functions
of their inputs and always succeed: expansion cannot fail, MakeCommand
cannot fail, commands return no error and do not touch the runner state,
and a module command returns `NewResult(true)` with no error. -/
structure PureCollab where
  expandF : ScopeV → String → String
  makeF : ScopeV → Task → String → String → Option Result

/-- The Collab induced by a `PureCollab`. -/
def pureCollab (p : PureCollab) : Collab :=
  { expandVars := fun v s => Except.ok (p.expandF v s)
    makeCommand := fun v t s => Except.ok ⟨fun a st => (st, p.makeF v t s a, none)⟩
    moduleRun := fun _ _ st => (st, some (NewResult true), none) }

/-- The history entry that one item of an item loop contributes under a
pure collaborator family (register empty): the child-scope view binds
`item`, name and args are re-expanded against it, and the command built
from the expanded args runs on them. -/
def itemResult (p : PureCollab) (task : Task) (sF : List Frame) (fs : Frame)
    (it : Value) : RunResult :=
  let v := itemViewOf it sF fs
  let s := p.expandF v task.args
  RunResult.mk task (p.makeF v task s s)

/-- The two reporter events one item of an item loop emits under a pure
collaborator family. -/
def itemReports (p : PureCollab) (task : Task) (sF : List Frame) (fs : Frame)
    (it : Value) : List ReportEv :=
  let v := itemViewOf it sF fs
  let nm := p.expandF v task.name
  let s := p.expandF v task.args
  [ReportEv.startTask task nm s, ReportEv.finishTask task (p.makeF v task s s)]

/-
Scaffolding lemmas shared by the claim theorems.
-/

/-- Shape of the completion block when the command returned an error. -/
theorem completeTask_err_eq (task : Task) (res : Option Result) (msg : String)
    (st : RState) :
    completeTask task res (some msg) st =
      { st with
        fsVars := if task.register ≠ "" then
            frameSet st.fsVars task.register (SVal.r res)
          else st.fsVars,
        results := st.results ++ [RunResult.mk task (some (failedResult msg))],
        reports := st.reports ++ [ReportEv.finishTask task (some (failedResult msg))] } := by
  by_cases h : task.register = "" <;> simp [completeTask, h]

/-- Shape of the completion block when the command returned no error. -/
theorem completeTask_ok_eq (task : Task) (res : Option Result) (st : RState) :
    completeTask task res none st =
      { st with
        fsVars := if task.register ≠ "" then
            frameSet st.fsVars task.register (SVal.r res)
          else st.fsVars,
        results := st.results ++ [RunResult.mk task res],
        reports := st.reports ++ [ReportEv.finishTask task res],
        toNotify := List.foldl addNotify st.toNotify task.notify } := by
  by_cases h : task.register = "" <;> simp [completeTask, h]

/-- A task with no When clause goes straight to dispatch. -/
theorem runTask_noWhen (c : Collab) (play : Play) (task : Task) (sF : List Frame)
    (st : RState) (h : task.when = "") :
    runTask c play task sF st = runTaskDispatch c play task sF st := by
  simp [runTask, h]

/-- Unfolding of the dispatch for the synchronous non-module branch. -/
theorem runTaskDispatch_sync (c : Collab) (play : Play) (task : Task)
    (sF : List Frame) (st : RState) (nm ar : String) (cmd : Cmd)
    (hitems : task.items = none)
    (hname : c.expandVars (psViewOf task sF st.fsVars) task.name = Except.ok nm)
    (hargs : c.expandVars (psViewOf task sF st.fsVars) task.args = Except.ok ar)
    (hmod : play.modules.contains task.command = false)
    (hmk : c.makeCommand (psViewOf task sF st.fsVars) task ar = Except.ok cmd)
    (hfut : task.future = "")
    (hasync : task.async = false) :
    runTaskDispatch c play task sF st =
      (completeTask task (cmd.run ar (reportStart st task nm ar)).2.1
        (cmd.run ar (reportStart st task nm ar)).2.2
        (cmd.run ar (reportStart st task nm ar)).1, none, some Dispatch.sync) := by
  have hmod' : ¬ task.command ∈ play.modules := by simpa using hmod
  have hres : resolveCmd c play task (psViewOf task sF st.fsVars) ar = Except.ok cmd := by
    simp [resolveCmd, hmod', hmk]
  simp [runTaskDispatch, hitems, hname, hargs, hres, hfut, hasync]

/-- Unfolding of one iteration of the item loop. -/
theorem runTaskItems_step (c : Collab) (task : Task) (sF : List Frame)
    (item : Value) (rest : List Value) (st : RState) (nm ar : String) (cmd : Cmd)
    (hname : c.expandVars (itemViewOf item sF st.fsVars) task.name = Except.ok nm)
    (hargs : c.expandVars (itemViewOf item sF st.fsVars) task.args = Except.ok ar)
    (hmk : c.makeCommand (itemViewOf item sF st.fsVars) task ar = Except.ok cmd) :
    runTaskItems c task sF (item :: rest) st =
      runTaskItems c task sF rest
        (completeTask task (cmd.run ar (reportStart st task nm ar)).2.1
          (cmd.run ar (reportStart st task nm ar)).2.2
          (cmd.run ar (reportStart st task nm ar)).1) := by
  simp [runTaskItems, hname, hargs, hmk]

/-- Membership survives adding a name to the notify set. -/
theorem mem_addNotify_of_mem (s : List String) (n m : String) (h : m ∈ s) :
    m ∈ addNotify s n := by
  unfold addNotify
  split
  · exact h
  · exact List.mem_append_left _ h

/-- Adding a name puts it in the notify set. -/
theorem mem_addNotify_self (s : List String) (n : String) : n ∈ addNotify s n := by
  unfold addNotify
  split
  · next h => exact List.mem_of_elem_eq_true h
  · exact List.mem_append_right _ (List.mem_singleton.mpr rfl)

/-- Membership survives folding any notify list into the set. -/
theorem mem_foldl_addNotify_of_mem (l : List String) (s : List String) (m : String)
    (h : m ∈ s) : m ∈ List.foldl addNotify s l := by
  induction l generalizing s with
  | nil => exact h
  | cons a t ih => exact ih (addNotify s a) (mem_addNotify_of_mem s a m h)

/-- Every name of the folded notify list ends up in the set. -/
theorem mem_foldl_addNotify_self (l : List String) (s : List String) (n : String)
    (h : n ∈ l) : n ∈ List.foldl addNotify s l := by
  induction l generalizing s with
  | nil => cases h
  | cons a t ih =>
    rcases List.mem_cons.mp h with h' | h'
    · subst h'
      exact mem_foldl_addNotify_of_mem t (addNotify s n) n (mem_addNotify_self s n)
    · exact ih (addNotify s a) h'

/-- Unfolding of the dispatch for a task with an item list: the loop runs
whatever the Future and Async settings are. -/
theorem runTaskDispatch_items (c : Collab) (play : Play) (task : Task)
    (sF : List Frame) (st : RState) (items : List Value)
    (h : task.items = some items) :
    runTaskDispatch c play task sF st =
      ((runTaskItems c task sF items st).1,
        (runTaskItems c task sF items st).2, some Dispatch.items) := by
  simp [runTaskDispatch, h]

/-- Unfolding of the dispatch for a Future task: the future is registered
and `runTask` returns immediately; nothing else changes. -/
theorem runTaskDispatch_future (c : Collab) (play : Play) (task : Task)
    (sF : List Frame) (st : RState) (nm ar : String) (cmd : Cmd)
    (hitems : task.items = none)
    (hname : c.expandVars (psViewOf task sF st.fsVars) task.name = Except.ok nm)
    (hargs : c.expandVars (psViewOf task sF st.fsVars) task.args = Except.ok ar)
    (hres : resolveCmd c play task (psViewOf task sF st.fsVars) ar = Except.ok cmd)
    (hfut : task.future ≠ "") :
    runTaskDispatch c play task sF st =
      ({ st with
          reports := st.reports ++ [ReportEv.startTask task nm ar],
          futures := st.futures ++ [(task.future, task)] },
        none, some Dispatch.future) := by
  simp [runTaskDispatch, hitems, hname, hargs, hres, hfut, reportStart]

/-- Unfolding of the dispatch for an Async task: the action is initialised
and launched and `runTask` returns immediately; no Result is recorded. -/
theorem runTaskDispatch_async (c : Collab) (play : Play) (task : Task)
    (sF : List Frame) (st : RState) (nm ar : String) (cmd : Cmd)
    (hitems : task.items = none)
    (hname : c.expandVars (psViewOf task sF st.fsVars) task.name = Except.ok nm)
    (hargs : c.expandVars (psViewOf task sF st.fsVars) task.args = Except.ok ar)
    (hres : resolveCmd c play task (psViewOf task sF st.fsVars) ar = Except.ok cmd)
    (hfut : task.future = "")
    (hasync : task.async = true) :
    runTaskDispatch c play task sF st =
      ({ st with
          reports := st.reports ++ [ReportEv.startTask task nm ar],
          asyncLaunched := st.asyncLaunched ++ [task] },
        none, some Dispatch.async) := by
  simp [runTaskDispatch, hitems, hname, hargs, hres, hfut, hasync, reportStart]

/-- Unfolding of the synchronous dispatch with the command already
resolved (builtin or module). -/
theorem runTaskDispatch_syncResolved (c : Collab) (play : Play) (task : Task)
    (sF : List Frame) (st : RState) (nm ar : String) (cmd : Cmd)
    (hitems : task.items = none)
    (hname : c.expandVars (psViewOf task sF st.fsVars) task.name = Except.ok nm)
    (hargs : c.expandVars (psViewOf task sF st.fsVars) task.args = Except.ok ar)
    (hres : resolveCmd c play task (psViewOf task sF st.fsVars) ar = Except.ok cmd)
    (hfut : task.future = "")
    (hasync : task.async = false) :
    runTaskDispatch c play task sF st =
      (completeTask task (cmd.run ar (reportStart st task nm ar)).2.1
        (cmd.run ar (reportStart st task nm ar)).2.2
        (cmd.run ar (reportStart st task nm ar)).1, none, some Dispatch.sync) := by
  simp [runTaskDispatch, hitems, hname, hargs, hres, hfut, hasync]

/-- One step of the item loop under a pure collaborator family. -/
theorem pure_runTaskItems_cons (p : PureCollab) (task : Task) (sF : List Frame)
    (it : Value) (rest : List Value) (st : RState) :
    runTaskItems (pureCollab p) task sF (it :: rest) st =
      runTaskItems (pureCollab p) task sF rest
        (completeTask task
          (p.makeF (itemViewOf it sF st.fsVars) task
            (p.expandF (itemViewOf it sF st.fsVars) task.args)
            (p.expandF (itemViewOf it sF st.fsVars) task.args))
          none
          (reportStart st task
            (p.expandF (itemViewOf it sF st.fsVars) task.name)
            (p.expandF (itemViewOf it sF st.fsVars) task.args))) := rfl

/-- Under a pure collaborator family the item loop never errors, the notify
set only grows, and a task with no Notify names leaves it unchanged. -/
theorem pure_runTaskItems_spec (p : PureCollab) (task : Task) (sF : List Frame) :
    ∀ (items : List Value) (st : RState),
      (runTaskItems (pureCollab p) task sF items st).2 = none ∧
      (∀ m, m ∈ st.toNotify →
        m ∈ (runTaskItems (pureCollab p) task sF items st).1.toNotify) ∧
      (task.notify = [] →
        (runTaskItems (pureCollab p) task sF items st).1.toNotify = st.toNotify) := by
  intro items
  induction items with
  | nil => exact fun st => ⟨rfl, fun m h => h, fun _ => rfl⟩
  | cons it rest ih =>
    intro st
    rw [pure_runTaskItems_cons]
    refine ⟨(ih _).1, fun m hm => ?_, fun hnil => ?_⟩
    · refine (ih _).2.1 m ?_
      simp only [completeTask_ok_eq]
      exact mem_foldl_addNotify_of_mem task.notify _ m (by simpa [reportStart] using hm)
    · rw [(ih _).2.2 hnil]
      simp [completeTask_ok_eq, hnil, reportStart]

/-- Under a pure collaborator family `runTask` never errors, the notify set
only grows, and a task with no Notify names leaves it unchanged. -/
theorem pure_runTask_spec (p : PureCollab) (play : Play) (task : Task)
    (sF : List Frame) (st : RState) :
    (runTask (pureCollab p) play task sF st).2.1 = none ∧
    (∀ m, m ∈ st.toNotify → m ∈ (runTask (pureCollab p) play task sF st).1.toNotify) ∧
    (task.notify = [] → (runTask (pureCollab p) play task sF st).1.toNotify = st.toNotify) := by
  have hdisp : (runTaskDispatch (pureCollab p) play task sF st).2.1 = none ∧
      (∀ m, m ∈ st.toNotify →
        m ∈ (runTaskDispatch (pureCollab p) play task sF st).1.toNotify) ∧
      (task.notify = [] →
        (runTaskDispatch (pureCollab p) play task sF st).1.toNotify = st.toNotify) := by
    cases hitems : task.items with
    | some items =>
      rw [runTaskDispatch_items (pureCollab p) play task sF st items hitems]
      exact ⟨(pure_runTaskItems_spec p task sF items st).1,
        fun m hm => (pure_runTaskItems_spec p task sF items st).2.1 m hm,
        fun h => (pure_runTaskItems_spec p task sF items st).2.2 h⟩
    | none =>
      have hname : (pureCollab p).expandVars (psViewOf task sF st.fsVars) task.name
          = Except.ok (p.expandF (psViewOf task sF st.fsVars) task.name) := rfl
      have hargs : (pureCollab p).expandVars (psViewOf task sF st.fsVars) task.args
          = Except.ok (p.expandF (psViewOf task sF st.fsVars) task.args) := rfl
      set ar := p.expandF (psViewOf task sF st.fsVars) task.args with har
      have hcmd : ∃ cmd : Cmd,
          resolveCmd (pureCollab p) play task (psViewOf task sF st.fsVars) ar
            = Except.ok cmd ∧
          ∀ a s, (cmd.run a s).1 = s ∧ (cmd.run a s).2.2 = none := by
        by_cases hmod : play.modules.contains task.command = true
        · refine ⟨⟨fun a s => (pureCollab p).moduleRun task.command a s⟩, ?_, ?_⟩
          · have hmod' : task.command ∈ play.modules := by simpa using hmod
            simp [resolveCmd, hmod']
          · intro a s; exact ⟨rfl, rfl⟩
        · refine ⟨⟨fun a s => (s, p.makeF (psViewOf task sF st.fsVars) task ar a, none)⟩, ?_, ?_⟩
          · have hmod' : ¬ task.command ∈ play.modules := by simpa using hmod
            simp [resolveCmd, hmod', pureCollab]
          · intro a s; exact ⟨rfl, rfl⟩
      obtain ⟨cmd, hres, hrun⟩ := hcmd
      by_cases hfut : task.future = ""
      · by_cases hasync : task.async = true
        · rw [runTaskDispatch_async (pureCollab p) play task sF st _ ar cmd hitems
            hname hargs hres hfut hasync]
          exact ⟨rfl, fun m hm => hm, fun _ => rfl⟩
        · rw [runTaskDispatch_syncResolved (pureCollab p) play task sF st _ ar cmd hitems
            hname hargs hres hfut (by simpa using hasync)]
          have h1 := hrun ar (reportStart st task
            (p.expandF (psViewOf task sF st.fsVars) task.name) ar)
          rw [h1.1, h1.2]
          refine ⟨rfl, fun m hm => ?_, fun hnil => ?_⟩
          · simp only [completeTask_ok_eq]
            exact mem_foldl_addNotify_of_mem task.notify _ m (by simpa [reportStart] using hm)
          · simp [completeTask_ok_eq, hnil, reportStart]
      · rw [runTaskDispatch_future (pureCollab p) play task sF st _ ar cmd hitems
          hname hargs hres hfut]
        exact ⟨rfl, fun m hm => hm, fun _ => rfl⟩
  by_cases hwhen : task.when = ""
  · rw [runTask_noWhen (pureCollab p) play task sF st hwhen]
    exact hdisp
  · have : runTask (pureCollab p) play task sF st =
        if boolify (p.expandF (psViewOf task sF st.fsVars) task.when) then
          runTaskDispatch (pureCollab p) play task sF st
        else (st, none, none) := by
      simp [runTask, hwhen, pureCollab]
    rw [this]
    by_cases hb : boolify (p.expandF (psViewOf task sF st.fsVars) task.when) = true
    · rw [if_pos hb]; exact hdisp
    · rw [if_neg (by simpa using hb)]
      exact ⟨rfl, fun m hm => hm, fun _ => rfl⟩

/-- C1.  A command error in a synchronous or item dispatch is caught: the
scheduler synthesizes a failed Result (`failed=true`, `error=<message>`),
appends it to the history, reports it, and continues — `runTask` returns no
error after a synchronous dispatch, and the item loop proceeds to the next
item. -/
theorem c1_command_error_caught_and_run_continues :
    (∀ (c : Collab) (play : Play) (task : Task) (sF : List Frame)
       (st st1 : RState) (nm ar emsg : String) (cmd : Cmd) (res : Option Result),
       task.when = "" → task.items = none → task.future = "" →
       task.async = false →
       play.modules.contains task.command = false →
       c.expandVars (psViewOf task sF st.fsVars) task.name = Except.ok nm →
       c.expandVars (psViewOf task sF st.fsVars) task.args = Except.ok ar →
       c.makeCommand (psViewOf task sF st.fsVars) task ar = Except.ok cmd →
       cmd.run ar (reportStart st task nm ar) = (st1, res, some emsg) →
       (runTask c play task sF st).2.1 = none ∧
       (runTask c play task sF st).2.2 = some Dispatch.sync ∧
       (runTask c play task sF st).1.results
         = st1.results ++ [RunResult.mk task (some (failedResult emsg))] ∧
       (runTask c play task sF st).1.reports
         = st1.reports ++ [ReportEv.finishTask task (some (failedResult emsg))] ∧
       failedResult emsg
         = ⟨false, [("failed", Value.vbool true), ("error", Value.vstr emsg)]⟩)
  ∧ (∀ (c : Collab) (task : Task) (sF : List Frame) (st st1 : RState)
       (item : Value) (rest : List Value) (nm ar emsg : String) (cmd : Cmd)
       (res : Option Result),
       c.expandVars (itemViewOf item sF st.fsVars) task.name = Except.ok nm →
       c.expandVars (itemViewOf item sF st.fsVars) task.args = Except.ok ar →
       c.makeCommand (itemViewOf item sF st.fsVars) task ar = Except.ok cmd →
       cmd.run ar (reportStart st task nm ar) = (st1, res, some emsg) →
       runTaskItems c task sF (item :: rest) st
         = runTaskItems c task sF rest (completeTask task res (some emsg) st1) ∧
       (completeTask task res (some emsg) st1).results
         = st1.results ++ [RunResult.mk task (some (failedResult emsg))] ∧
       (completeTask task res (some emsg) st1).reports
         = st1.reports ++ [ReportEv.finishTask task (some (failedResult emsg))]) := by
  constructor
  · intro c play task sF st st1 nm ar emsg cmd res hwhen hitems hfut hasync hmod
      hname hargs hmk hrun
    have hd := runTaskDispatch_sync c play task sF st nm ar cmd hitems hname hargs
      hmod hmk hfut hasync
    rw [runTask_noWhen c play task sF st hwhen, hd, hrun]
    refine ⟨rfl, rfl, ?_, ?_, rfl⟩ <;> simp [completeTask_err_eq]
  · intro c task sF st st1 item rest nm ar emsg cmd res hname hargs hmk hrun
    have hstep := runTaskItems_step c task sF item rest st nm ar cmd hname hargs hmk
    rw [hrun] at hstep
    exact ⟨hstep, by simp [completeTask_err_eq], by simp [completeTask_err_eq]⟩

/-- Witness for C1 at a concrete task and failing command. -/
theorem c1_witness :
    ((runTask (collabWith (errCmd "boom")) play0 baseTask [] st0).2.1 = none ∧
     (runTask (collabWith (errCmd "boom")) play0 baseTask [] st0).2.2
       = some Dispatch.sync ∧
     (runTask (collabWith (errCmd "boom")) play0 baseTask [] st0).1.results
       = (reportStart st0 baseTask "t" "a").results
           ++ [RunResult.mk baseTask (some (failedResult "boom"))] ∧
     (runTask (collabWith (errCmd "boom")) play0 baseTask [] st0).1.reports
       = (reportStart st0 baseTask "t" "a").reports
           ++ [ReportEv.finishTask baseTask (some (failedResult "boom"))] ∧
     failedResult "boom"
       = ⟨false, [("failed", Value.vbool true), ("error", Value.vstr "boom")]⟩) ∧
    runTaskItems (collabWith (errCmd "boom")) baseTask [] [Value.vint 1, Value.vint 2] st0
      = runTaskItems (collabWith (errCmd "boom")) baseTask [] [Value.vint 2]
          (completeTask baseTask none (some "boom") (reportStart st0 baseTask "t" "a")) := by
  constructor
  · exact c1_command_error_caught_and_run_continues.1 (collabWith (errCmd "boom"))
      play0 baseTask [] st0 (reportStart st0 baseTask "t" "a") "t" "a" "boom"
      (errCmd "boom") none rfl rfl rfl rfl rfl rfl rfl rfl rfl
  · exact (c1_command_error_caught_and_run_continues.2 (collabWith (errCmd "boom"))
      baseTask [] st0 (reportStart st0 baseTask "t" "a") (Value.vint 1) [Value.vint 2]
      "t" "a" "boom" (errCmd "boom") none rfl rfl rfl rfl).1

/-- A handler whose name is in the notify set is dispatched, and the loop
continues on the updated state when its runTask returns no error. -/
theorem runHandlers_cons_pos (c : Collab) (play : Play) (h : Task)
    (rest : List Task) (st : RState)
    (hc : ShouldRunHandler st h.name = true)
    (hok : (runTask c play h [] st).2.1 = none) :
    runHandlers c play (h :: rest) st =
      ((runHandlers c play rest (runTask c play h [] st).1).1,
       h :: (runHandlers c play rest (runTask c play h [] st).1).2.1,
       (runHandlers c play rest (runTask c play h [] st).1).2.2) := by
  simp [runHandlers, hc, hok]

/-- A handler whose name is not in the notify set is skipped. -/
theorem runHandlers_cons_neg (c : Collab) (play : Play) (h : Task)
    (rest : List Task) (st : RState)
    (hc : ShouldRunHandler st h.name = false) :
    runHandlers c play (h :: rest) st = runHandlers c play rest st := by
  simp [runHandlers, hc]

/-- Under a pure collaborator family, when no handler declares Notify names
of its own, the dispatched handlers are exactly those whose name is in the
notify set the loop started with. -/
theorem runHandlers_filter (p : PureCollab) (play : Play) :
    ∀ (hs : List Task) (st : RState), (∀ h ∈ hs, h.notify = []) →
      (runHandlers (pureCollab p) play hs st).2.1
        = hs.filter (fun h => st.toNotify.contains h.name) := by
  intro hs
  induction hs with
  | nil => intro st _; rfl
  | cons h rest ih =>
    intro st hnil
    by_cases hc : ShouldRunHandler st h.name = true
    · have hok := (pure_runTask_spec p play h [] st).1
      have hnn : (runTask (pureCollab p) play h [] st).1.toNotify = st.toNotify :=
        (pure_runTask_spec p play h [] st).2.2 (hnil h (by simp))
      rw [runHandlers_cons_pos (pureCollab p) play h rest st hc hok]
      have hrec := ih (runTask (pureCollab p) play h [] st).1
        (fun h' hm => hnil h' (List.mem_cons_of_mem h hm))
      rw [hnn] at hrec
      simp only [hrec]
      have hmem : h.name ∈ st.toNotify := List.mem_of_elem_eq_true hc
      simp [List.filter_cons, hmem]
    · have hc' : ShouldRunHandler st h.name = false := by
        simpa using hc
      rw [runHandlers_cons_neg (pureCollab p) play h rest st hc']
      have hmem : ¬ h.name ∈ st.toNotify := by
        simpa [ShouldRunHandler] using hc'
      rw [ih st (fun h' hm => hnil h' (List.mem_cons_of_mem h hm))]
      simp [List.filter_cons, hmem]

/-- Under a pure collaborator family, every handler whose name is in the
notify set when the loop starts is dispatched: the set only grows, so a
phase-one notification can never be lost by later handlers. -/
theorem runHandlers_sound (p : PureCollab) (play : Play) :
    ∀ (hs : List Task) (st : RState) (h : Task), h ∈ hs →
      ShouldRunHandler st h.name = true →
      h ∈ (runHandlers (pureCollab p) play hs st).2.1 := by
  intro hs
  induction hs with
  | nil => intro st h hmem; cases hmem
  | cons h0 rest ih =>
    intro st h hmem hc
    rcases List.mem_cons.mp hmem with heq | hmem'
    · subst heq
      rw [runHandlers_cons_pos (pureCollab p) play h rest st hc
        (pure_runTask_spec p play h [] st).1]
      exact List.mem_cons_self h _
    · by_cases hc0 : ShouldRunHandler st h0.name = true
      · rw [runHandlers_cons_pos (pureCollab p) play h0 rest st hc0
          (pure_runTask_spec p play h0 [] st).1]
        have hmono : h.name ∈ (runTask (pureCollab p) play h0 [] st).1.toNotify :=
          (pure_runTask_spec p play h0 [] st).2.1 h.name
            (List.mem_of_elem_eq_true hc)
        exact List.mem_cons_of_mem h0
          (ih (runTask (pureCollab p) play h0 [] st).1 h hmem'
            (List.elem_eq_true_of_mem hmono))
      · rw [runHandlers_cons_neg (pureCollab p) play h0 rest st (by simpa using hc0)]
        exact ih st h hmem' hc

/-- Counterexample to C3: handlers run with the full dispatch machinery, so
a handler can itself notify a later handler during phase two.  Here handler
"a" (notified in phase one) has `Notify ["b"]`; handler "b" is dispatched
although "b" is not in the notify set accumulated during phase one. -/
theorem c3_counterexample :
    (runHandlers (collabWith (okCmd (some (NewResult true)))) play0
        [{ baseTask with name := "a", notify := ["b"] },
         { baseTask with name := "b" }]
        { st0 with toNotify := ["a"] }).2.1
      = [{ baseTask with name := "a", notify := ["b"] },
         { baseTask with name := "b" }] ∧
    ¬ ({ baseTask with name := "b" } : Task).name
        ∈ ({ st0 with toNotify := ["a"] } : RState).toNotify :=
  ⟨rfl, by decide⟩

/-- C3 (amended).  A handler is dispatched in phase two iff its name is in
the notify set at the moment it is considered: the set accumulated during
phase one plus the names added by earlier phase-two handlers.  Concretely:
adding a name to the notify set is idempotent; every handler whose
phase-one name is in the starting set is dispatched (the set never
shrinks); when no handler declares Notify names the dispatched list is
exactly the filter by the starting set, so a handler listed once runs
exactly once however often it was notified; and a task whose command
errors adds no Notify names. -/
theorem c3_handler_runs_iff_notified :
    (∀ (s : List String) (n : String), addNotify (addNotify s n) n = addNotify s n)
  ∧ (∀ (p : PureCollab) (play : Play) (hs : List Task) (st : RState) (h : Task),
       h ∈ hs → ShouldRunHandler st h.name = true →
       h ∈ (runHandlers (pureCollab p) play hs st).2.1)
  ∧ (∀ (p : PureCollab) (play : Play) (hs : List Task) (st : RState),
       (∀ h ∈ hs, h.notify = []) →
       (runHandlers (pureCollab p) play hs st).2.1
         = hs.filter (fun h => st.toNotify.contains h.name))
  ∧ (∀ (p : PureCollab) (play : Play) (hs : List Task) (st : RState) (h : Task),
       (∀ h' ∈ hs, h'.notify = []) →
       st.toNotify.contains h.name = true →
       ((runHandlers (pureCollab p) play hs st).2.1).count h = hs.count h)
  ∧ (∀ (task : Task) (res : Option Result) (msg : String) (st : RState),
       (completeTask task res (some msg) st).toNotify = st.toNotify) := by
  refine ⟨?_, runHandlers_sound, runHandlers_filter, ?_, ?_⟩
  · intro s n
    by_cases h : s.contains n = true
    · have h1 : addNotify s n = s := by
        have hm : n ∈ s := List.mem_of_elem_eq_true h
        simp [addNotify, hm]
      rw [h1]
      exact h1
    · have h' : ¬ n ∈ s := by simpa using h
      have h1 : addNotify s n = s ++ [n] := by simp [addNotify, h']
      have hm : n ∈ s ++ [n] := List.mem_append_right s (List.mem_singleton.mpr rfl)
      rw [h1]
      simp [addNotify, hm]
  · intro p play hs st h hnil hc
    rw [runHandlers_filter p play hs st hnil]
    exact List.count_filter hc
  · intro task res msg st
    simp [completeTask_err_eq]

/-- Witness for the amended C3 at concrete handlers: with starting notify
set containing "a" only, handler "a" is dispatched and dispatched exactly
once, and adding "a" twice equals adding it once. -/
theorem c3_witness :
    addNotify (addNotify ["x"] "a") "a" = addNotify ["x"] "a" ∧
    ({ baseTask with name := "a" } : Task)
      ∈ (runHandlers (pureCollab ⟨fun _ s => s, fun _ _ _ _ => some (NewResult true)⟩)
          play0 [{ baseTask with name := "a" }, { baseTask with name := "b" }]
          { st0 with toNotify := ["a"] }).2.1 ∧
    ((runHandlers (pureCollab ⟨fun _ s => s, fun _ _ _ _ => some (NewResult true)⟩)
        play0 [{ baseTask with name := "a" }, { baseTask with name := "b" }]
        { st0 with toNotify := ["a"] }).2.1)
      = [{ baseTask with name := "a" }, { baseTask with name := "b" }].filter
          (fun h => ({ st0 with toNotify := ["a"] } : RState).toNotify.contains h.name) ∧
    ((runHandlers (pureCollab ⟨fun _ s => s, fun _ _ _ _ => some (NewResult true)⟩)
        play0 [{ baseTask with name := "a" }, { baseTask with name := "b" }]
        { st0 with toNotify := ["a"] }).2.1).count { baseTask with name := "a" }
      = [{ baseTask with name := "a" }, { baseTask with name := "b" }].count
          { baseTask with name := "a" } ∧
    (completeTask baseTask none (some "boom2") st0).toNotify = st0.toNotify := by
  refine ⟨c3_handler_runs_iff_notified.1 ["x"] "a", ?_, ?_, ?_, ?_⟩
  · exact c3_handler_runs_iff_notified.2.1 ⟨fun _ s => s, fun _ _ _ _ => some (NewResult true)⟩
      play0 [{ baseTask with name := "a" }, { baseTask with name := "b" }]
      { st0 with toNotify := ["a"] } { baseTask with name := "a" }
      (by decide) (by decide)
  · exact c3_handler_runs_iff_notified.2.2.1 ⟨fun _ s => s, fun _ _ _ _ => some (NewResult true)⟩
      play0 [{ baseTask with name := "a" }, { baseTask with name := "b" }]
      { st0 with toNotify := ["a"] } (by decide)
  · exact c3_handler_runs_iff_notified.2.2.2.1 ⟨fun _ s => s, fun _ _ _ _ => some (NewResult true)⟩
      play0 [{ baseTask with name := "a" }, { baseTask with name := "b" }]
      { st0 with toNotify := ["a"] } { baseTask with name := "a" }
      (by decide) (by decide)
  · exact c3_handler_runs_iff_notified.2.2.2.2 baseTask none "boom2" st0

/-- A passed When gate (absent clause, or a truthy expansion) reduces
`runTask` to the dispatch. -/
theorem runTask_whenOk (c : Collab) (play : Play) (task : Task) (sF : List Frame)
    (st : RState)
    (h : task.when = "" ∨ ∃ w, c.expandVars (psViewOf task sF st.fsVars) task.when
          = Except.ok w ∧ boolify w = true) :
    runTask c play task sF st = runTaskDispatch c play task sF st := by
  rcases h with h | ⟨w, hw, hb⟩
  · simp [runTask, h]
  · by_cases h0 : task.when = ""
    · simp [runTask, h0]
    · simp [runTask, h0, hw, hb]

/-- The item loop never registers a Future and never launches an
AsyncAction (shown under a pure collaborator family, where the commands
themselves leave the runner state alone). -/
theorem pure_runTaskItems_no_future_no_async (p : PureCollab) (task : Task)
    (sF : List Frame) :
    ∀ (its : List Value) (st : RState),
      (runTaskItems (pureCollab p) task sF its st).1.futures = st.futures ∧
      (runTaskItems (pureCollab p) task sF its st).1.asyncLaunched = st.asyncLaunched := by
  intro its
  induction its with
  | nil => exact fun st => ⟨rfl, rfl⟩
  | cons it rest ih =>
    intro st
    rw [pure_runTaskItems_cons]
    constructor
    · rw [(ih _).1]; simp [completeTask_ok_eq, reportStart]
    · rw [(ih _).2]; simp [completeTask_ok_eq, reportStart]

/-- C4.  Every dispatched task takes exactly one of the four paths, and
precedence is items, then Future, then Async, then synchronous: a task
with Items is dispatched as an item loop whatever its Future and Async
settings (and the loop never registers a future or launches an async
action); without Items, a Future name registers the future and returns
with no Result recorded; else the Async flag launches the action and
returns with no Result recorded; else the dispatch is synchronous. -/
theorem c4_dispatch_exclusive_and_prioritized :
    (∀ (c : Collab) (play : Play) (task : Task) (sF : List Frame) (st : RState)
       (its : List Value),
       (task.when = "" ∨ ∃ w, c.expandVars (psViewOf task sF st.fsVars) task.when
          = Except.ok w ∧ boolify w = true) →
       task.items = some its →
       (runTask c play task sF st).2.2 = some Dispatch.items)
  ∧ (∀ (p : PureCollab) (task : Task) (sF : List Frame) (its : List Value)
       (st : RState),
       (runTaskItems (pureCollab p) task sF its st).1.futures = st.futures ∧
       (runTaskItems (pureCollab p) task sF its st).1.asyncLaunched = st.asyncLaunched)
  ∧ (∀ (c : Collab) (play : Play) (task : Task) (sF : List Frame) (st : RState)
       (nm ar : String) (cmd : Cmd),
       (task.when = "" ∨ ∃ w, c.expandVars (psViewOf task sF st.fsVars) task.when
          = Except.ok w ∧ boolify w = true) →
       task.items = none →
       c.expandVars (psViewOf task sF st.fsVars) task.name = Except.ok nm →
       c.expandVars (psViewOf task sF st.fsVars) task.args = Except.ok ar →
       resolveCmd c play task (psViewOf task sF st.fsVars) ar = Except.ok cmd →
       task.future ≠ "" →
       runTask c play task sF st =
         ({ st with
             reports := st.reports ++ [ReportEv.startTask task nm ar],
             futures := st.futures ++ [(task.future, task)] },
           none, some Dispatch.future))
  ∧ (∀ (c : Collab) (play : Play) (task : Task) (sF : List Frame) (st : RState)
       (nm ar : String) (cmd : Cmd),
       (task.when = "" ∨ ∃ w, c.expandVars (psViewOf task sF st.fsVars) task.when
          = Except.ok w ∧ boolify w = true) →
       task.items = none →
       c.expandVars (psViewOf task sF st.fsVars) task.name = Except.ok nm →
       c.expandVars (psViewOf task sF st.fsVars) task.args = Except.ok ar →
       resolveCmd c play task (psViewOf task sF st.fsVars) ar = Except.ok cmd →
       task.future = "" → task.async = true →
       runTask c play task sF st =
         ({ st with
             reports := st.reports ++ [ReportEv.startTask task nm ar],
             asyncLaunched := st.asyncLaunched ++ [task] },
           none, some Dispatch.async))
  ∧ (∀ (c : Collab) (play : Play) (task : Task) (sF : List Frame) (st : RState)
       (nm ar : String) (cmd : Cmd),
       (task.when = "" ∨ ∃ w, c.expandVars (psViewOf task sF st.fsVars) task.when
          = Except.ok w ∧ boolify w = true) →
       task.items = none →
       c.expandVars (psViewOf task sF st.fsVars) task.name = Except.ok nm →
       c.expandVars (psViewOf task sF st.fsVars) task.args = Except.ok ar →
       resolveCmd c play task (psViewOf task sF st.fsVars) ar = Except.ok cmd →
       task.future = "" → task.async = false →
       (runTask c play task sF st).2.2 = some Dispatch.sync) := by
  refine ⟨?_, pure_runTaskItems_no_future_no_async, ?_, ?_, ?_⟩
  · intro c play task sF st its hwhen hitems
    rw [runTask_whenOk c play task sF st hwhen,
      runTaskDispatch_items c play task sF st its hitems]
  · intro c play task sF st nm ar cmd hwhen hitems hname hargs hres hfut
    rw [runTask_whenOk c play task sF st hwhen,
      runTaskDispatch_future c play task sF st nm ar cmd hitems hname hargs hres hfut]
  · intro c play task sF st nm ar cmd hwhen hitems hname hargs hres hfut hasync
    rw [runTask_whenOk c play task sF st hwhen,
      runTaskDispatch_async c play task sF st nm ar cmd hitems hname hargs hres hfut hasync]
  · intro c play task sF st nm ar cmd hwhen hitems hname hargs hres hfut hasync
    rw [runTask_whenOk c play task sF st hwhen,
      runTaskDispatch_syncResolved c play task sF st nm ar cmd hitems hname hargs hres
        hfut hasync]

/-- Witness for C4: a task carrying Items together with a Future name and
the Async flag still dispatches as an item loop; dropping Items, the same
modifiers dispatch as a Future; dropping the Future name, as Async; with
no modifiers, synchronously. -/
theorem c4_witness :
    (runTask (collabWith (okCmd (some (NewResult true)))) play0
        { baseTask with items := some [Value.vint 1], future := "f", async := true }
        [] st0).2.2 = some Dispatch.items ∧
    ((runTaskItems (pureCollab ⟨fun _ s => s, fun _ _ _ _ => some (NewResult true)⟩)
        { baseTask with items := some [Value.vint 1], future := "f", async := true }
        [] [Value.vint 1] st0).1.futures = st0.futures ∧
     (runTaskItems (pureCollab ⟨fun _ s => s, fun _ _ _ _ => some (NewResult true)⟩)
        { baseTask with items := some [Value.vint 1], future := "f", async := true }
        [] [Value.vint 1] st0).1.asyncLaunched = st0.asyncLaunched) ∧
    runTask (collabWith (okCmd (some (NewResult true)))) play0
        { baseTask with future := "f", async := true } [] st0
      = ({ st0 with
            reports := st0.reports
              ++ [ReportEv.startTask { baseTask with future := "f", async := true } "t" "a"],
            futures := st0.futures
              ++ [(({ baseTask with future := "f", async := true } : Task).future,
                   { baseTask with future := "f", async := true })] },
          none, some Dispatch.future) ∧
    runTask (collabWith (okCmd (some (NewResult true)))) play0
        { baseTask with async := true } [] st0
      = ({ st0 with
            reports := st0.reports
              ++ [ReportEv.startTask { baseTask with async := true } "t" "a"],
            asyncLaunched := st0.asyncLaunched ++ [{ baseTask with async := true }] },
          none, some Dispatch.async) ∧
    (runTask (collabWith (okCmd (some (NewResult true)))) play0 baseTask [] st0).2.2
      = some Dispatch.sync := by
  refine ⟨?_, ?_, ?_, ?_, ?_⟩
  · exact c4_dispatch_exclusive_and_prioritized.1
      (collabWith (okCmd (some (NewResult true)))) play0
      { baseTask with items := some [Value.vint 1], future := "f", async := true }
      [] st0 [Value.vint 1] (Or.inl rfl) rfl
  · exact c4_dispatch_exclusive_and_prioritized.2.1
      ⟨fun _ s => s, fun _ _ _ _ => some (NewResult true)⟩
      { baseTask with items := some [Value.vint 1], future := "f", async := true }
      [] [Value.vint 1] st0
  · exact c4_dispatch_exclusive_and_prioritized.2.2.1
      (collabWith (okCmd (some (NewResult true)))) play0
      { baseTask with future := "f", async := true } [] st0 "t" "a"
      (okCmd (some (NewResult true))) (Or.inl rfl) rfl rfl rfl rfl (by decide)
  · exact c4_dispatch_exclusive_and_prioritized.2.2.2.1
      (collabWith (okCmd (some (NewResult true)))) play0
      { baseTask with async := true } [] st0 "t" "a"
      (okCmd (some (NewResult true))) (Or.inl rfl) rfl rfl rfl rfl rfl rfl
  · exact c4_dispatch_exclusive_and_prioritized.2.2.2.2
      (collabWith (okCmd (some (NewResult true)))) play0 baseTask [] st0 "t" "a"
      (okCmd (some (NewResult true))) (Or.inl rfl) rfl rfl rfl rfl rfl rfl

/-- Full unrolling of the item loop under a pure collaborator family when
the task registers nothing: one history entry and one start/finish report
pair per item, in item order, the loop errors nowhere and the FutureScope
frame is untouched. -/
theorem pure_runTaskItems_unroll (p : PureCollab) (task : Task) (sF : List Frame)
    (hreg : task.register = "") :
    ∀ (its : List Value) (st : RState),
      (runTaskItems (pureCollab p) task sF its st).2 = none ∧
      (runTaskItems (pureCollab p) task sF its st).1.results
        = st.results ++ its.map (itemResult p task sF st.fsVars) ∧
      (runTaskItems (pureCollab p) task sF its st).1.reports
        = st.reports ++ (its.map (itemReports p task sF st.fsVars)).flatten ∧
      (runTaskItems (pureCollab p) task sF its st).1.fsVars = st.fsVars := by
  intro its
  induction its with
  | nil => exact fun st => ⟨rfl, by simp [runTaskItems], by simp [runTaskItems], rfl⟩
  | cons it rest ih =>
    intro st
    rw [pure_runTaskItems_cons]
    have hfs : (completeTask task
        (p.makeF (itemViewOf it sF st.fsVars) task
          (p.expandF (itemViewOf it sF st.fsVars) task.args)
          (p.expandF (itemViewOf it sF st.fsVars) task.args)) none
        (reportStart st task
          (p.expandF (itemViewOf it sF st.fsVars) task.name)
          (p.expandF (itemViewOf it sF st.fsVars) task.args))).fsVars = st.fsVars := by
      simp [completeTask_ok_eq, reportStart, hreg]
    refine ⟨(ih _).1, ?_, ?_, ?_⟩
    · rw [(ih _).2.1, hfs]
      simp [completeTask_ok_eq, reportStart, itemResult]
    · rw [(ih _).2.2.1, hfs]
      simp [completeTask_ok_eq, reportStart, itemReports]
    · rw [(ih _).2.2.2, hfs]

/-- C5.  A task with an Items list of N values performs exactly N
synchronous sub-executions, in item order, each against a child scope
binding `item` to the corresponding value, with the name and args templates
re-expanded against that child scope for each item; the loop reports each
sub-execution, leaves the FutureScope frame untouched (no Register), and
returns without error before the next task starts.  Stated under a pure
collaborator family so the per-item expansions are explicit. -/
theorem c5_item_loop_n_subexecutions :
    ∀ (p : PureCollab) (play : Play) (task : Task) (sF : List Frame)
      (st : RState) (its : List Value),
      (task.when = "" ∨ ∃ w, (pureCollab p).expandVars (psViewOf task sF st.fsVars)
          task.when = Except.ok w ∧ boolify w = true) →
      task.items = some its →
      task.register = "" →
      (runTask (pureCollab p) play task sF st).2.1 = none ∧
      (runTask (pureCollab p) play task sF st).2.2 = some Dispatch.items ∧
      (runTask (pureCollab p) play task sF st).1.results
        = st.results ++ its.map (itemResult p task sF st.fsVars) ∧
      (runTask (pureCollab p) play task sF st).1.results.length
        = st.results.length + its.length ∧
      (runTask (pureCollab p) play task sF st).1.reports
        = st.reports ++ (its.map (itemReports p task sF st.fsVars)).flatten ∧
      (runTask (pureCollab p) play task sF st).1.fsVars = st.fsVars := by
  intro p play task sF st its hwhen hitems hreg
  rw [runTask_whenOk (pureCollab p) play task sF st hwhen,
    runTaskDispatch_items (pureCollab p) play task sF st its hitems]
  have hu := pure_runTaskItems_unroll p task sF hreg its st
  refine ⟨hu.1, rfl, hu.2.1, ?_, hu.2.2.1, hu.2.2.2⟩
  rw [hu.2.1]
  simp

/-- Witness for C5 on two items whose values flow into the expanded args:
the two history entries appear in item order and carry the item-dependent
expansions. -/
theorem c5_witness :
    (runTask (pureCollab ⟨fun v s => s ++
        (match scopeGet v "item" with
         | some (SVal.v (Value.vstr t)) => t
         | _ => "?"),
        fun _ _ _ a => some ⟨true, [("got", Value.vstr a)]⟩⟩) play0
      { baseTask with items := some [Value.vstr "x", Value.vstr "y"] } [] st0).2.1
      = none ∧
    (runTask (pureCollab ⟨fun v s => s ++
        (match scopeGet v "item" with
         | some (SVal.v (Value.vstr t)) => t
         | _ => "?"),
        fun _ _ _ a => some ⟨true, [("got", Value.vstr a)]⟩⟩) play0
      { baseTask with items := some [Value.vstr "x", Value.vstr "y"] } [] st0).2.2
      = some Dispatch.items ∧
    (runTask (pureCollab ⟨fun v s => s ++
        (match scopeGet v "item" with
         | some (SVal.v (Value.vstr t)) => t
         | _ => "?"),
        fun _ _ _ a => some ⟨true, [("got", Value.vstr a)]⟩⟩) play0
      { baseTask with items := some [Value.vstr "x", Value.vstr "y"] } [] st0).1.results
      = st0.results ++ [Value.vstr "x", Value.vstr "y"].map
          (itemResult ⟨fun v s => s ++
            (match scopeGet v "item" with
             | some (SVal.v (Value.vstr t)) => t
             | _ => "?"),
            fun _ _ _ a => some ⟨true, [("got", Value.vstr a)]⟩⟩
            { baseTask with items := some [Value.vstr "x", Value.vstr "y"] } [] st0.fsVars) ∧
    [Value.vstr "x", Value.vstr "y"].map
        (itemResult ⟨fun v s => s ++
          (match scopeGet v "item" with
           | some (SVal.v (Value.vstr t)) => t
           | _ => "?"),
          fun _ _ _ a => some ⟨true, [("got", Value.vstr a)]⟩⟩
          { baseTask with items := some [Value.vstr "x", Value.vstr "y"] } [] st0.fsVars)
      = [RunResult.mk { baseTask with items := some [Value.vstr "x", Value.vstr "y"] }
            (some ⟨true, [("got", Value.vstr "ax")]⟩),
         RunResult.mk { baseTask with items := some [Value.vstr "x", Value.vstr "y"] }
            (some ⟨true, [("got", Value.vstr "ay")]⟩)] := by
  have h := c5_item_loop_n_subexecutions ⟨fun v s => s ++
      (match scopeGet v "item" with
       | some (SVal.v (Value.vstr t)) => t
       | _ => "?"),
      fun _ _ _ a => some ⟨true, [("got", Value.vstr a)]⟩⟩ play0
    { baseTask with items := some [Value.vstr "x", Value.vstr "y"] } [] st0
    [Value.vstr "x", Value.vstr "y"] (Or.inl rfl) rfl rfl
  exact ⟨h.1, h.2.1, h.2.2.1, rfl⟩

/-- A collaborator whose expansion always fails with the given message. -/
def errExpandCollab (msg : String) : Collab :=
  { expandVars := fun _ _ => Except.error msg
    makeCommand := fun _ _ _ => Except.ok (okCmd none)
    moduleRun := fun _ _ st => (st, some (NewResult true), none) }

/-- C6.  A non-empty When that expands to a falsy string makes `runTask`
return success with the runner state completely unchanged — no Result
recorded, no notify names added, nothing dispatched; a When expansion
error aborts with that error, again leaving the state unchanged. -/
theorem c6_when_false_skips_when_error_aborts :
    (∀ (c : Collab) (play : Play) (task : Task) (sF : List Frame) (st : RState)
       (w : String),
       task.when ≠ "" →
       c.expandVars (psViewOf task sF st.fsVars) task.when = Except.ok w →
       boolify w = false →
       runTask c play task sF st = (st, none, none))
  ∧ (∀ (c : Collab) (play : Play) (task : Task) (sF : List Frame) (st : RState)
       (e : String),
       task.when ≠ "" →
       c.expandVars (psViewOf task sF st.fsVars) task.when = Except.error e →
       runTask c play task sF st = (st, some e, none)) := by
  constructor
  · intro c play task sF st w hne hw hb
    simp [runTask, hne, hw, hb]
  · intro c play task sF st e hne hw
    simp [runTask, hne, hw]

/-- Witness for C6: the template "no" is falsy and the task is skipped with
the state unchanged; a failing When expansion aborts with its error. -/
theorem c6_witness :
    runTask (collabWith (okCmd (some (NewResult true)))) play0
        { baseTask with when := "no", notify := ["h"] } [] st0 = (st0, none, none) ∧
    runTask (errExpandCollab "bad template") play0
        { baseTask with when := "x" } [] st0 = (st0, some "bad template", none) := by
  constructor
  · exact c6_when_false_skips_when_error_aborts.1
      (collabWith (okCmd (some (NewResult true)))) play0
      { baseTask with when := "no", notify := ["h"] } [] st0 "no"
      (by decide) rfl rfl
  · exact c6_when_false_skips_when_error_aborts.2 (errExpandCollab "bad template")
      play0 { baseTask with when := "x" } [] st0 "bad template" (by decide) rfl

/-- A string has UTF-8 byte size zero exactly when it is empty. -/
theorem utf8ByteSize_eq_zero_iff (s : String) : s.utf8ByteSize = 0 ↔ s = "" := by
  cases s with
  | mk data =>
    have h : (String.mk data).utf8ByteSize = String.utf8Len data := rfl
    rw [h, String.utf8Len_eq_zero]
    constructor
    · intro hh; rw [hh]
    · intro hh; simpa using congrArg String.data hh

/-- Computation of `runCmd` on a process that exits 0: the Result carries
`rc`, trimmed `stdout` and `stderr`, and the `renderShellResult` verdict
decides the `_result` field. -/
theorem runCmd_exited0_eq (so se : String) :
    runCmd ⟨so, se, ProcOutcome.exited 0⟩ =
      (match renderShellResult ⟨true, [("rc", Value.vint 0),
          ("stdout", Value.vstr (trimSpace so)), ("stderr", Value.vstr (trimSpace se))]⟩ with
       | some (str, true) => Except.ok ((⟨true, [("rc", Value.vint 0),
           ("stdout", Value.vstr (trimSpace so)), ("stderr", Value.vstr (trimSpace se))]⟩ : Result).add
             "_result" (Value.vstr str))
       | some (_, false) => Except.ok ⟨true, [("rc", Value.vint 0),
           ("stdout", Value.vstr (trimSpace so)), ("stderr", Value.vstr (trimSpace se))]⟩
       | none => Except.error "panic: interface conversion") := rfl

/-- Computation of `renderShellResult` on a shell-style Result. -/
theorem renderShellResult_shape (rc : Int) (so se : String) :
    renderShellResult ⟨true, [("rc", Value.vint rc), ("stdout", Value.vstr so),
        ("stderr", Value.vstr se)]⟩
      = (if rc = 0 ∧ so.utf8ByteSize = 0 ∧ se.utf8ByteSize = 0 then some ("", true)
         else if se.utf8ByteSize = 0 ∧ so.utf8ByteSize < 60 then
           some ("rc: " ++ toString rc ++ ", stdout: \"" ++ replaceNl so ++ "\"",
             true)
         else some ("", false)) := rfl

/-- Counterexample to C7: stdout "a\nb\n" trims to the two-line string
"a\nb", which is shorter than 60 bytes, so with exit 0 and empty stderr the
code still attaches a compact `_result` summary (newline replaced by a
space) — the claim says multi-line stdout yields no compact summary field
at all. -/
theorem c7_counterexample :
    runCmd ⟨"a\nb\n", "", ProcOutcome.exited 0⟩
      = Except.ok ⟨true,
          [("rc", Value.vint 0), ("stdout", Value.vstr "a\nb"),
           ("stderr", Value.vstr ""),
           ("_result", Value.vstr "rc: 0, stdout: \"a b\"")]⟩ ∧
    (Result.mk true
        [("rc", Value.vint 0), ("stdout", Value.vstr "a\nb"),
         ("stderr", Value.vstr ""),
         ("_result", Value.vstr "rc: 0, stdout: \"a b\"")]).get "_result"
      = some (Value.vstr "rc: 0, stdout: \"a b\"") :=
  ⟨rfl, rfl⟩

/-- C7 (amended).  For exit 0: empty trimmed stdout and stderr yield an
empty `_result` summary; non-empty trimmed stdout under 60 bytes with
empty trimmed stderr yields `rc: 0, stdout: "<text>"` with newlines
replaced by spaces (single- or multi-line); non-empty trimmed stderr, or
trimmed stdout of 60 bytes or more, yields a Result with no `_result`
field. -/
theorem c7_shell_summary_rendering :
    (∀ so se : String, trimSpace so = "" → trimSpace se = "" →
       runCmd ⟨so, se, ProcOutcome.exited 0⟩
         = Except.ok ⟨true, [("rc", Value.vint 0), ("stdout", Value.vstr ""),
             ("stderr", Value.vstr ""), ("_result", Value.vstr "")]⟩)
  ∧ (∀ so se : String, trimSpace so ≠ "" → trimSpace se = "" →
       (trimSpace so).utf8ByteSize < 60 →
       runCmd ⟨so, se, ProcOutcome.exited 0⟩
         = Except.ok ⟨true, [("rc", Value.vint 0), ("stdout", Value.vstr (trimSpace so)),
             ("stderr", Value.vstr ""),
             ("_result", Value.vstr ("rc: 0, stdout: \""
               ++ replaceNl (trimSpace so) ++ "\""))]⟩)
  ∧ (∀ so se : String, (trimSpace se ≠ "" ∨ 60 ≤ (trimSpace so).utf8ByteSize) →
       runCmd ⟨so, se, ProcOutcome.exited 0⟩
         = Except.ok ⟨true, [("rc", Value.vint 0), ("stdout", Value.vstr (trimSpace so)),
             ("stderr", Value.vstr (trimSpace se))]⟩)
  ∧ (∀ a b c : Value,
       (Result.mk true [("rc", a), ("stdout", b), ("stderr", c)]).get "_result"
         = none) := by
  refine ⟨?_, ?_, ?_, fun a b c => rfl⟩
  · intro so se hso hse
    rw [runCmd_exited0_eq so se, hso, hse]
    rfl
  · intro so se hso hse hlen
    rw [runCmd_exited0_eq so se, hse, renderShellResult_shape]
    have h1 : ¬((0 : Int) = 0 ∧ (trimSpace so).utf8ByteSize = 0
        ∧ ("" : String).utf8ByteSize = 0) := by
      rintro ⟨-, h2, -⟩
      exact hso ((utf8ByteSize_eq_zero_iff (trimSpace so)).mp h2)
    rw [if_neg h1]
    have h2 : ("" : String).utf8ByteSize = 0 ∧ (trimSpace so).utf8ByteSize < 60 :=
      ⟨rfl, hlen⟩
    rw [if_pos h2]
    rfl
  · intro so se h
    rw [runCmd_exited0_eq so se, renderShellResult_shape]
    have hso60 : ∀ n : Nat, 60 ≤ n → ¬ n = 0 := by omega
    have h1 : ¬((0 : Int) = 0 ∧ (trimSpace so).utf8ByteSize = 0
        ∧ (trimSpace se).utf8ByteSize = 0) := by
      rintro ⟨-, hso, hse⟩
      rcases h with h | h
      · exact h ((utf8ByteSize_eq_zero_iff (trimSpace se)).mp hse)
      · exact hso60 _ h hso
    have h2 : ¬((trimSpace se).utf8ByteSize = 0 ∧ (trimSpace so).utf8ByteSize < 60) := by
      rintro ⟨hse, hlt⟩
      rcases h with h | h
      · exact h ((utf8ByteSize_eq_zero_iff (trimSpace se)).mp hse)
      · omega
    rw [if_neg h1, if_neg h2]

/-- Witness for the amended C7 on three concrete runs: all-whitespace
output, a short two-line stdout, and a stderr-producing run. -/
theorem c7_witness :
    runCmd ⟨" \n", "", ProcOutcome.exited 0⟩
      = Except.ok ⟨true, [("rc", Value.vint 0), ("stdout", Value.vstr ""),
          ("stderr", Value.vstr ""), ("_result", Value.vstr "")]⟩ ∧
    runCmd ⟨"ok\nfine\n", "", ProcOutcome.exited 0⟩
      = Except.ok ⟨true, [("rc", Value.vint 0),
          ("stdout", Value.vstr "ok\nfine"),
          ("stderr", Value.vstr ""),
          ("_result", Value.vstr "rc: 0, stdout: \"ok fine\"")]⟩ ∧
    runCmd ⟨"x", "oops", ProcOutcome.exited 0⟩
      = Except.ok ⟨true, [("rc", Value.vint 0),
          ("stdout", Value.vstr "x"),
          ("stderr", Value.vstr "oops")]⟩ := by
  refine ⟨?_, ?_, ?_⟩
  · exact c7_shell_summary_rendering.1 " \n" "" rfl rfl
  · exact c7_shell_summary_rendering.2.1 "ok\nfine\n" "" (by decide) rfl (by decide)
  · exact c7_shell_summary_rendering.2.2.1 "x" "oops" (Or.inl (by decide))

/-- Counterexample to C2: a task whose command completes without error but
whose Result has `changed=false` still adds its Notify names — the code
gates notification on the absence of an error only, never on the changed
flag. -/
theorem c2_counterexample :
    (NewResult false).changed = false ∧
    (runTask (collabWith (okCmd (some (NewResult false)))) play0
        { baseTask with notify := ["h"] } [] st0).1.toNotify = ["h"] :=
  ⟨rfl, rfl⟩

/-- C2 (amended).  After a synchronous dispatch whose command returned no
error, every Notify name of the task is folded into the notify set — for
any returned Result, regardless of its `changed` flag — so its handlers are
marked due; the shared completion block does the same on each item of an
item loop. -/
theorem c2_notify_applied_on_success_regardless_of_changed :
    (∀ (c : Collab) (play : Play) (task : Task) (sF : List Frame)
       (st st1 : RState) (nm ar : String) (cmd : Cmd) (res : Option Result),
       task.when = "" → task.items = none → task.future = "" →
       task.async = false →
       play.modules.contains task.command = false →
       c.expandVars (psViewOf task sF st.fsVars) task.name = Except.ok nm →
       c.expandVars (psViewOf task sF st.fsVars) task.args = Except.ok ar →
       c.makeCommand (psViewOf task sF st.fsVars) task ar = Except.ok cmd →
       cmd.run ar (reportStart st task nm ar) = (st1, res, none) →
       (runTask c play task sF st).1.toNotify
         = List.foldl addNotify st1.toNotify task.notify ∧
       ∀ n ∈ task.notify, ShouldRunHandler (runTask c play task sF st).1 n = true)
  ∧ (∀ (task : Task) (res : Option Result) (st : RState),
       (completeTask task res none st).toNotify
         = List.foldl addNotify st.toNotify task.notify) := by
  constructor
  · intro c play task sF st st1 nm ar cmd res hwhen hitems hfut hasync hmod
      hname hargs hmk hrun
    have hd := runTaskDispatch_sync c play task sF st nm ar cmd hitems hname hargs
      hmod hmk hfut hasync
    rw [runTask_noWhen c play task sF st hwhen, hd, hrun]
    constructor
    · simp [completeTask_ok_eq]
    · intro n hn
      simp only [ShouldRunHandler, completeTask_ok_eq]
      exact List.elem_eq_true_of_mem
        (mem_foldl_addNotify_self task.notify _ n hn)
  · intro task res st
    simp [completeTask_ok_eq]

/-- Witness for the amended C2 at the counterexample input: the command
succeeds with a `changed=false` Result and the notify name is still added. -/
theorem c2_witness :
    ((runTask (collabWith (okCmd (some (NewResult false)))) play0
        { baseTask with notify := ["h"] } [] st0).1.toNotify
      = List.foldl addNotify
          (reportStart st0 { baseTask with notify := ["h"] } "t" "a").toNotify
          ({ baseTask with notify := ["h"] } : Task).notify ∧
     ∀ n ∈ ({ baseTask with notify := ["h"] } : Task).notify,
       ShouldRunHandler (runTask (collabWith (okCmd (some (NewResult false)))) play0
         { baseTask with notify := ["h"] } [] st0).1 n = true) ∧
    (completeTask { baseTask with notify := ["h"] } (some (NewResult false)) none st0).toNotify
      = List.foldl addNotify st0.toNotify ({ baseTask with notify := ["h"] } : Task).notify := by
  constructor
  · exact c2_notify_applied_on_success_regardless_of_changed.1
      (collabWith (okCmd (some (NewResult false)))) play0
      { baseTask with notify := ["h"] } [] st0
      (reportStart st0 { baseTask with notify := ["h"] } "t" "a") "t" "a"
      (okCmd (some (NewResult false))) (some (NewResult false))
      rfl rfl rfl rfl rfl rfl rfl rfl rfl
  · exact c2_notify_applied_on_success_regardless_of_changed.2
      { baseTask with notify := ["h"] } (some (NewResult false)) st0

/-- C8.  Builtin process execution collapses every non-zero exit status to
ReturnCode 1, maps exit 0 to ReturnCode 0, and returns a non-exit failure
as an error with no CommandResult; `RunCommandInEnv` behaves identically. -/
theorem c8_nonzero_exit_collapses_to_one :
    (∀ (so se : String) (code : Nat), code ≠ 0 →
       RunCommand ⟨so, se, ProcOutcome.exited code⟩ = Except.ok ⟨1, so, se⟩)
  ∧ (∀ so se : String,
       RunCommand ⟨so, se, ProcOutcome.exited 0⟩ = Except.ok ⟨0, so, se⟩)
  ∧ (∀ so se msg : String,
       RunCommand ⟨so, se, ProcOutcome.failed msg⟩ = Except.error msg)
  ∧ (∀ (unixEnv : List String) (p : Proc), RunCommandInEnv unixEnv p = RunCommand p) := by
  refine ⟨?_, fun so se => rfl, fun so se msg => rfl, ?_⟩
  · intro so se code hcode
    cases code with
    | zero => exact absurd rfl hcode
    | succ n => rfl
  · intro unixEnv p
    obtain ⟨so, se, out⟩ := p
    cases out with
    | exited code => cases code with
      | zero => rfl
      | succ n => rfl
    | failed msg => rfl

/-- Witness for C8 at exit status 7, exit status 0, and a spawn failure. -/
theorem c8_witness :
    RunCommand ⟨"out", "err", ProcOutcome.exited 7⟩
      = Except.ok ⟨1, "out", "err"⟩ ∧
    RunCommand ⟨"out", "err", ProcOutcome.exited 0⟩
      = Except.ok ⟨0, "out", "err"⟩ ∧
    RunCommand ⟨"", "", ProcOutcome.failed "no such file"⟩
      = Except.error "no such file" ∧
    RunCommandInEnv ["A=1"] ⟨"out", "err", ProcOutcome.exited 7⟩
      = RunCommand ⟨"out", "err", ProcOutcome.exited 7⟩ := by
  refine ⟨?_, ?_, ?_, ?_⟩
  · exact c8_nonzero_exit_collapses_to_one.1 "out" "err" 7 (by decide)
  · exact c8_nonzero_exit_collapses_to_one.2.1 "out" "err"
  · exact c8_nonzero_exit_collapses_to_one.2.2.1 "" "" "no such file"
  · exact c8_nonzero_exit_collapses_to_one.2.2.2 ["A=1"] ⟨"out", "err", ProcOutcome.exited 7⟩

/-- C9.  `ModuleRun.Run` returns `NewResult(true)` (changed) and no error
for every behavior of the runner's `runTask` on the module's sub-tasks —
their return values, error or not, are discarded — provided the argument
parse succeeds; consequently a module-backed synchronous task counts as
successful and folds all its Notify names into the notify set. -/
theorem c9_module_run_always_succeeds :
    (∀ (sm : List (String × Value))
       (subRunTask : Task → List (String × Value) → RState → RState × Option String)
       (modTasks : List Task) (st : RState),
       (ModuleRunRun (Except.ok sm) subRunTask modTasks st).2.1
         = some (NewResult true) ∧
       (ModuleRunRun (Except.ok sm) subRunTask modTasks st).2.2 = none ∧
       (NewResult true).changed = true)
  ∧ (∀ (c : Collab) (play : Play) (task : Task) (sF : List Frame)
       (st st1 : RState) (nm ar : String) (res : Option Result),
       task.when = "" → task.items = none → task.future = "" →
       task.async = false →
       play.modules.contains task.command = true →
       c.expandVars (psViewOf task sF st.fsVars) task.name = Except.ok nm →
       c.expandVars (psViewOf task sF st.fsVars) task.args = Except.ok ar →
       c.moduleRun task.command ar (reportStart st task nm ar) = (st1, res, none) →
       (runTask c play task sF st).2.1 = none ∧
       (runTask c play task sF st).1.toNotify
         = List.foldl addNotify st1.toNotify task.notify ∧
       (runTask c play task sF st).1.results
         = st1.results ++ [RunResult.mk task res]) := by
  constructor
  · intro sm subRunTask modTasks
    induction modTasks with
    | nil => exact fun st => ⟨rfl, rfl, rfl⟩
    | cons t rest ih => exact fun st => ih ((subRunTask t sm st).1)
  · intro c play task sF st st1 nm ar res hwhen hitems hfut hasync hmod
      hname hargs hrun
    have hmod' : task.command ∈ play.modules := by simpa using hmod
    have hres : resolveCmd c play task (psViewOf task sF st.fsVars) ar
        = Except.ok ⟨fun a s => c.moduleRun task.command a s⟩ := by
      simp [resolveCmd, hmod']
    have hd := runTaskDispatch_syncResolved c play task sF st nm ar
      ⟨fun a s => c.moduleRun task.command a s⟩ hitems hname hargs hres hfut hasync
    have hrun' : (Cmd.mk (fun a s => c.moduleRun task.command a s)).run ar
        (reportStart st task nm ar) = (st1, res, none) := hrun
    rw [runTask_noWhen c play task sF st hwhen, hd, hrun']
    refine ⟨rfl, ?_, ?_⟩ <;> simp [completeTask_ok_eq]

/-- Witness for C9: a module of two sub-tasks whose sub-runTask always
reports an error still yields a changed Result and no error, and a
module-backed task applies its Notify names. -/
theorem c9_witness :
    ((ModuleRunRun (Except.ok []) (fun _ _ st => (st, some "subtask failed"))
        [baseTask, baseTask] st0).2.1 = some (NewResult true) ∧
     (ModuleRunRun (Except.ok []) (fun _ _ st => (st, some "subtask failed"))
        [baseTask, baseTask] st0).2.2 = none ∧
     (NewResult true).changed = true) ∧
    ((runTask (collabWith (okCmd none)) ⟨[], [], [], ["m"]⟩
        { baseTask with command := "m", notify := ["h"] } [] st0).2.1 = none ∧
     (runTask (collabWith (okCmd none)) ⟨[], [], [], ["m"]⟩
        { baseTask with command := "m", notify := ["h"] } [] st0).1.toNotify
       = List.foldl addNotify
           (reportStart st0 { baseTask with command := "m", notify := ["h"] } "t" "a").toNotify
           ({ baseTask with command := "m", notify := ["h"] } : Task).notify ∧
     (runTask (collabWith (okCmd none)) ⟨[], [], [], ["m"]⟩
        { baseTask with command := "m", notify := ["h"] } [] st0).1.results
       = (reportStart st0 { baseTask with command := "m", notify := ["h"] } "t" "a").results
           ++ [RunResult.mk { baseTask with command := "m", notify := ["h"] }
                (some (NewResult true))]) := by
  constructor
  · exact c9_module_run_always_succeeds.1 [] (fun _ _ st => (st, some "subtask failed"))
      [baseTask, baseTask] st0
  · exact c9_module_run_always_succeeds.2 (collabWith (okCmd none)) ⟨[], [], [], ["m"]⟩
      { baseTask with command := "m", notify := ["h"] } [] st0
      (reportStart st0 { baseTask with command := "m", notify := ["h"] } "t" "a")
      "t" "a" (some (NewResult true)) rfl rfl rfl rfl rfl rfl rfl rfl

/-- C10.  In synchronous and item dispatch the Register binding happens
before the command-error check: the value bound under the Register name in
the play's FutureScope frame is the command's raw returned Result —
possibly nil — not the synthesized failed Result appended to the history;
the per-item child scope receives no such binding (the item frame exists
only for the expansions). -/
theorem c10_register_binds_raw_result :
    (∀ (c : Collab) (play : Play) (task : Task) (sF : List Frame)
       (st st1 : RState) (nm ar : String) (cmd : Cmd) (res : Option Result)
       (err : Option String),
       task.when = "" → task.items = none → task.future = "" →
       task.async = false →
       play.modules.contains task.command = false →
       c.expandVars (psViewOf task sF st.fsVars) task.name = Except.ok nm →
       c.expandVars (psViewOf task sF st.fsVars) task.args = Except.ok ar →
       c.makeCommand (psViewOf task sF st.fsVars) task ar = Except.ok cmd →
       task.register ≠ "" →
       cmd.run ar (reportStart st task nm ar) = (st1, res, err) →
       (runTask c play task sF st).1.fsVars
         = frameSet st1.fsVars task.register (SVal.r res))
  ∧ (∀ (c : Collab) (task : Task) (sF : List Frame) (st st1 : RState)
       (item : Value) (rest : List Value) (nm ar : String) (cmd : Cmd)
       (res : Option Result) (err : Option String),
       c.expandVars (itemViewOf item sF st.fsVars) task.name = Except.ok nm →
       c.expandVars (itemViewOf item sF st.fsVars) task.args = Except.ok ar →
       c.makeCommand (itemViewOf item sF st.fsVars) task ar = Except.ok cmd →
       task.register ≠ "" →
       cmd.run ar (reportStart st task nm ar) = (st1, res, err) →
       runTaskItems c task sF (item :: rest) st
         = runTaskItems c task sF rest (completeTask task res err st1) ∧
       (completeTask task res err st1).fsVars
         = frameSet st1.fsVars task.register (SVal.r res)) := by
  constructor
  · intro c play task sF st st1 nm ar cmd res err hwhen hitems hfut hasync hmod
      hname hargs hmk hreg hrun
    have hd := runTaskDispatch_sync c play task sF st nm ar cmd hitems hname hargs
      hmod hmk hfut hasync
    rw [runTask_noWhen c play task sF st hwhen, hd, hrun]
    cases err with
    | none => simp [completeTask_ok_eq, hreg]
    | some e => simp [completeTask_err_eq, hreg]
  · intro c task sF st st1 item rest nm ar cmd res err hname hargs hmk hreg hrun
    have hstep := runTaskItems_step c task sF item rest st nm ar cmd hname hargs hmk
    rw [hrun] at hstep
    refine ⟨hstep, ?_⟩
    cases err with
    | none => simp [completeTask_ok_eq, hreg]
    | some e => simp [completeTask_err_eq, hreg]

/-- Witness for C10: a failing command that returns a nil Result still
binds nil (not the synthesized failed Result) under the Register name in
the FutureScope frame, in both the synchronous and the item path. -/
theorem c10_witness :
    (runTask (collabWith (errCmd "boom")) play0
        { baseTask with register := "r" } [] st0).1.fsVars
      = frameSet (reportStart st0 { baseTask with register := "r" } "t" "a").fsVars
          ({ baseTask with register := "r" } : Task).register (SVal.r none) ∧
    (runTaskItems (collabWith (errCmd "boom")) { baseTask with register := "r" }
        [] [Value.vint 9] st0
      = runTaskItems (collabWith (errCmd "boom")) { baseTask with register := "r" }
          [] [] (completeTask { baseTask with register := "r" } none (some "boom")
            (reportStart st0 { baseTask with register := "r" } "t" "a")) ∧
     (completeTask { baseTask with register := "r" } none (some "boom")
        (reportStart st0 { baseTask with register := "r" } "t" "a")).fsVars
       = frameSet (reportStart st0 { baseTask with register := "r" } "t" "a").fsVars
           ({ baseTask with register := "r" } : Task).register (SVal.r none)) := by
  constructor
  · exact c10_register_binds_raw_result.1 (collabWith (errCmd "boom")) play0
      { baseTask with register := "r" } [] st0
      (reportStart st0 { baseTask with register := "r" } "t" "a") "t" "a"
      (errCmd "boom") none (some "boom") rfl rfl rfl rfl rfl rfl rfl rfl
      (by decide) rfl
  · exact c10_register_binds_raw_result.2 (collabWith (errCmd "boom"))
      { baseTask with register := "r" } [] st0
      (reportStart st0 { baseTask with register := "r" } "t" "a")
      (Value.vint 9) [] "t" "a" (errCmd "boom") none (some "boom")
      rfl rfl rfl (by decide) rfl

end Tachyon
